import Mathlib

/-!
Verification development for the PTY terminal-session manager in
`src/ui/src-tauri/src/terminal.rs`.

The manager keeps a global session table (`Mutex<HashMap<u32, PtySession>>`),
a global `AtomicU32` session counter, and per-session pump threads that relay
PTY output as `terminal-output` events and publish a single `terminal-exit`
event when the read loop ends.

The embedding below is shallow:
* the session table is an association list with unique keys
  (`HashMap` lookup / insert / remove semantics);
* OS-level calls (`openpty`, `spawn_command`, `try_clone_reader`,
  `take_writer`, `write_all`, `flush`, `resize`, `child.wait()`) are modelled
  by oracles supplying their results, since their outcomes come from the OS;
* each manager operation additionally records a trace of micro-events
  (lock acquisition/release, lookup, the I/O calls) mirroring the exact
  source order, so lock-scope properties can be stated;
* the pump thread, its interleaving with `kill`, and the event stream are a
  small labelled transition system;
* the `AtomicU32` counter is a natural number taken modulo 2 ^ 32, matching
  Rust's wrapping `fetch_add`.
-/

namespace Karpi

/-- A stored session: the `writer` and the kept-alive `master` PTY handle,
as in `struct PtySession` (terminal.rs lines 14-19).  The handles are opaque
to the manager, so they are modelled as abstract numeric tags. -/
structure PtySession where
  writer : Nat
  master : Nat
  deriving DecidableEq

/-- The session table: `HashMap<u32, PtySession>` modelled as an association
list with unique keys. -/
abbrev Table := List (Nat × PtySession)

deriving instance DecidableEq for Except

/-- `HashMap::get` / `get_mut`: first (unique) entry with the given key. -/
def lookupSession (t : Table) (sid : Nat) : Option PtySession :=
  match t with
  | [] => none
  | (k, v) :: r => if k = sid then some v else lookupSession r sid

/-- `HashMap::remove`: drop the entry with the given key. -/
def removeKey (t : Table) (sid : Nat) : Table :=
  match t with
  | [] => []
  | (k, v) :: r => if k = sid then removeKey r sid else (k, v) :: removeKey r sid

/-- `HashMap::insert`: add or replace the entry with the given key. -/
def insertSession (t : Table) (sid : Nat) (s : PtySession) : Table :=
  (sid, s) :: removeKey t sid

/-- `list_terminals` (terminal.rs lines 233-237): the keys of the table. -/
def list_terminals (t : Table) : List Nat :=
  t.map Prod.fst

/-- The error string produced by `write`/`resize`/`kill` on a missing id:
`format!("Terminal session {} not found", session_id)`.  This is the
`SessionNotFound` case of the spec's error taxonomy. -/
def notFoundMsg (sid : Nat) : String :=
  "Terminal session " ++ toString sid ++ " not found"

/-- Micro-events of a manager operation, in source order: session-table lock
acquisition and release, the table lookup, and the blocking OS-level I/O
calls. -/
inductive MEv where
  | lockAcquire : MEv
  | lockRelease : MEv
  | lookup : Nat → MEv
  | writeAll : Nat → List Nat → MEv
  | flushW : Nat → MEv
  | resizeIo : Nat → Nat → Nat → MEv
  deriving DecidableEq

/-- Whether a micro-event is one of the blocking OS-level I/O calls. -/
def isIoEv : MEv → Bool
  | .writeAll _ _ => true
  | .flushW _ => true
  | .resizeIo _ _ _ => true
  | _ => false

/-- Whether a micro-event is a `write_all` call. -/
def isWriteEv : MEv → Bool
  | .writeAll _ _ => true
  | _ => false

/-- Scans a micro-event trace keeping the current lock depth; `true` iff some
blocking I/O event occurs while the session-table lock is held. -/
def anyIoWhileHeld (d : Nat) (evs : List MEv) : Bool :=
  match evs with
  | [] => false
  | e :: r =>
    match e with
    | .lockAcquire => anyIoWhileHeld (d + 1) r
    | .lockRelease => anyIoWhileHeld (d - 1) r
    | _ => (isIoEv e && decide (0 < d)) || anyIoWhileHeld d r

/-- Outcomes of the two OS calls made by `write_terminal`. -/
structure WriteOracle where
  writeAllRes : Except String Unit
  flushRes : Except String Unit
  deriving DecidableEq

/-- Outcome of the OS call made by `resize_terminal`. -/
structure ResizeOracle where
  resizeRes : Except String Unit
  deriving DecidableEq

/-- Result of a manager operation: returned value, table afterwards, and the
micro-event trace of the call. -/
structure OpResult where
  res : Except String Unit
  table : Table
  trace : List MEv
  deriving DecidableEq

/-- `write_terminal` (terminal.rs lines 171-188).  The guard returned by
`state.sessions.lock()` lives to the end of the function (including the `?`
early returns), so every trace ends with `lockRelease` and the I/O events sit
between the acquisition and the release.  `data` is the byte sequence of the
input string (`data.as_bytes()`). -/
def write_terminal (t : Table) (sid : Nat) (data : List Nat) (o : WriteOracle) : OpResult :=
  match lookupSession t sid with
  | some _ =>
    match o.writeAllRes with
    | .error e =>
      { res := .error ("Failed to write to terminal: " ++ e)
        table := t
        trace := [.lockAcquire, .lookup sid, .writeAll sid data, .lockRelease] }
    | .ok _ =>
      match o.flushRes with
      | .error e =>
        { res := .error ("Failed to flush terminal: " ++ e)
          table := t
          trace := [.lockAcquire, .lookup sid, .writeAll sid data, .flushW sid, .lockRelease] }
      | .ok _ =>
        { res := .ok ()
          table := t
          trace := [.lockAcquire, .lookup sid, .writeAll sid data, .flushW sid, .lockRelease] }
  | none =>
    { res := .error (notFoundMsg sid)
      table := t
      trace := [.lockAcquire, .lookup sid, .lockRelease] }

/-- `resize_terminal` (terminal.rs lines 192-215); the lock guard again lives
across the blocking `master.resize(...)` call. -/
def resize_terminal (t : Table) (sid : Nat) (cols rows : Nat) (o : ResizeOracle) : OpResult :=
  match lookupSession t sid with
  | some _ =>
    match o.resizeRes with
    | .error e =>
      { res := .error ("Failed to resize terminal: " ++ e)
        table := t
        trace := [.lockAcquire, .lookup sid, .resizeIo sid cols rows, .lockRelease] }
    | .ok _ =>
      { res := .ok ()
        table := t
        trace := [.lockAcquire, .lookup sid, .resizeIo sid cols rows, .lockRelease] }
  | none =>
    { res := .error (notFoundMsg sid)
      table := t
      trace := [.lockAcquire, .lookup sid, .lockRelease] }

/-- `kill_terminal` (terminal.rs lines 219-229): remove the entry if present
(dropping the stored writer and master), else report `SessionNotFound`. -/
def kill_terminal (t : Table) (sid : Nat) : OpResult :=
  match lookupSession t sid with
  | some _ =>
    { res := .ok ()
      table := removeKey t sid
      trace := [.lockAcquire, .lookup sid, .lockRelease] }
  | none =>
    { res := .error (notFoundMsg sid)
      table := t
      trace := [.lockAcquire, .lookup sid, .lockRelease] }

/-- Outcomes of the four fallible provider calls made by `spawn_terminal`,
in source order: `openpty`, `slave.spawn_command`, `master.try_clone_reader`,
`master.take_writer`. -/
structure SpawnOracle where
  openpty : Except String Unit
  spawnCmd : Except String Unit
  cloneReader : Except String Unit
  takeWriter : Except String Unit
  deriving DecidableEq

/-- Result of `spawn_terminal`: returned value, session counter afterwards,
table afterwards, and whether the pump thread was started. -/
structure SpawnResult where
  res : Except String Nat
  counter : Nat
  table : Table
  pumpStarted : Bool
  deriving DecidableEq

/-- `spawn_terminal` (terminal.rs lines 47-167).  `c` is the current value of
the `AtomicU32` `SESSION_COUNTER`; `fetch_add(1, SeqCst)` returns `c` and
stores `(c + 1) % 2 ^ 32` (Rust atomics wrap).  The counter is bumped after
`spawn_command` succeeds (line 88) and before `try_clone_reader` /
`take_writer` (lines 91-100); the table insert (lines 104-113) and the pump
start (line 118) happen only after all four calls succeed. -/
def spawn_terminal (c : Nat) (t : Table) (o : SpawnOracle) : SpawnResult :=
  match o.openpty with
  | .error e =>
    { res := .error ("Failed to open PTY: " ++ e), counter := c, table := t, pumpStarted := false }
  | .ok _ =>
    match o.spawnCmd with
    | .error e =>
      { res := .error ("Failed to spawn shell: " ++ e), counter := c, table := t,
        pumpStarted := false }
    | .ok _ =>
      match o.cloneReader with
      | .error e =>
        { res := .error ("Failed to clone reader: " ++ e), counter := (c + 1) % 2 ^ 32,
          table := t, pumpStarted := false }
      | .ok _ =>
        match o.takeWriter with
        | .error e =>
          { res := .error ("Failed to take writer: " ++ e), counter := (c + 1) % 2 ^ 32,
            table := t, pumpStarted := false }
        | .ok _ =>
          { res := .ok c, counter := (c + 1) % 2 ^ 32,
            table := insertSession t c ⟨c, c⟩, pumpStarted := true }

/-- An oracle under which every provider call succeeds. -/
def allOkOracle : SpawnOracle :=
  { openpty := .ok (), spawnCmd := .ok (), cloneReader := .ok (), takeWriter := .ok () }

/-- An oracle under which `try_clone_reader` fails (after the child was
spawned and the counter consumed). -/
def readerFailOracle : SpawnOracle :=
  { openpty := .ok (), spawnCmd := .ok (), cloneReader := .error "EIO", takeWriter := .ok () }

/-- An oracle under which `openpty` itself fails. -/
def openFailOracle : SpawnOracle :=
  { openpty := .error "ENXIO", spawnCmd := .ok (), cloneReader := .ok (), takeWriter := .ok () }

/-- A manager-level operation of a run: a spawn attempt (with its provider
oracle) or a kill. -/
inductive MgrOp where
  | spawn : SpawnOracle → MgrOp
  | kill : Nat → MgrOp
  deriving DecidableEq

/-- State after a run of manager operations: final counter, final table, and
the identifiers returned by the successful spawns, in call order. -/
structure RunResult where
  counter : Nat
  table : Table
  ids : List Nat
  deriving DecidableEq

/-- Run a list of manager operations from a counter and table, collecting the
identifiers returned by successful spawns. -/
def runOps (c : Nat) (t : Table) (ops : List MgrOp) : RunResult :=
  match ops with
  | [] => { counter := c, table := t, ids := [] }
  | .spawn o :: rest =>
    let r := spawn_terminal c t o
    let rr := runOps r.counter r.table rest
    match r.res with
    | .ok sid => { rr with ids := sid :: rr.ids }
    | .error _ => rr
  | .kill sid :: rest =>
    runOps c (kill_terminal t sid).table rest

/-- Whether an operation consumes a session identifier: a spawn whose
`openpty` and `spawn_command` both succeed performs the `fetch_add`,
whatever happens afterwards. -/
def consumesId : MgrOp → Bool
  | .spawn o =>
    match o.openpty, o.spawnCmd with
    | .ok _, .ok _ => true
    | _, _ => false
  | .kill _ => false

/-- Whether an operation is a fully successful spawn. -/
def spawnOk : MgrOp → Bool
  | .spawn o =>
    match o.openpty, o.spawnCmd, o.cloneReader, o.takeWriter with
    | .ok _, .ok _, .ok _, .ok _ => true
    | _, _, _, _ => false
  | .kill _ => false

/-- Number of identifier allocations (`fetch_add` executions) in a run. -/
def allocCount (ops : List MgrOp) : Nat :=
  (ops.filter consumesId).length

/-- Number of identifiers consumed before the first successful spawn of the
run (0 if the run starts with a successful spawn). -/
def consumedBeforeFirstOk : List MgrOp → Nat
  | [] => 0
  | op :: rest =>
    if spawnOk op then 0
    else (if consumesId op then 1 else 0) + consumedBeforeFirstOk rest

/-- A UTF-8 continuation byte (`0x80..=0xBF`). -/
def ContByte (b : Nat) : Prop := 0x80 ≤ b ∧ b ≤ 0xBF

instance (b : Nat) : Decidable (ContByte b) := by
  unfold ContByte
  exact inferInstance

/-- Admissible second byte of a three-byte sequence for lead byte `b`
(the `(0xE0, 0xA0..=0xBF) | (0xE1..=0xEC, 0x80..=0xBF) | (0xED, 0x80..=0x9F)
| (0xEE..=0xEF, 0x80..=0xBF)` arms of Rust's UTF-8 validation). -/
def Second3Ok (b c : Nat) : Prop :=
  (b = 0xE0 ∧ 0xA0 ≤ c ∧ c ≤ 0xBF) ∨
  (0xE1 ≤ b ∧ b ≤ 0xEC ∧ ContByte c) ∨
  (b = 0xED ∧ 0x80 ≤ c ∧ c ≤ 0x9F) ∨
  (0xEE ≤ b ∧ b ≤ 0xEF ∧ ContByte c)

instance (b c : Nat) : Decidable (Second3Ok b c) := by
  unfold Second3Ok ContByte
  exact inferInstance

/-- Admissible second byte of a four-byte sequence for lead byte `b`
(the `(0xF0, 0x90..=0xBF) | (0xF1..=0xF3, 0x80..=0xBF) | (0xF4, 0x80..=0x8F)`
arms of Rust's UTF-8 validation). -/
def Second4Ok (b c : Nat) : Prop :=
  (b = 0xF0 ∧ 0x90 ≤ c ∧ c ≤ 0xBF) ∨
  (0xF1 ≤ b ∧ b ≤ 0xF3 ∧ ContByte c) ∨
  (b = 0xF4 ∧ 0x80 ≤ c ∧ c ≤ 0x8F)

instance (b c : Nat) : Decidable (Second4Ok b c) := by
  unfold Second4Ok ContByte
  exact inferInstance

/-- `String::from_utf8_lossy` as called at terminal.rs line 125, modelled at
the level of Unicode scalar values: bytes are decoded with Rust std's UTF-8
validation automaton, and each maximal invalid subpart (one mis-leading byte,
or the consumed prefix of an aborted multi-byte sequence, or an incomplete
sequence at end of input) is replaced by one U+FFFD replacement character. -/
def utf8Lossy : List Nat → List Nat
  | [] => []
  | b :: rest =>
    if b ≤ 0x7F then
      b :: utf8Lossy rest
    else if 0xC2 ≤ b ∧ b ≤ 0xDF then
      match rest with
      | [] => [0xFFFD]
      | c :: rest2 =>
        if ContByte c then ((b - 0xC0) * 0x40 + (c - 0x80)) :: utf8Lossy rest2
        else 0xFFFD :: utf8Lossy (c :: rest2)
    else if 0xE0 ≤ b ∧ b ≤ 0xEF then
      match rest with
      | [] => [0xFFFD]
      | c :: rest2 =>
        if Second3Ok b c then
          match rest2 with
          | [] => [0xFFFD]
          | d :: rest3 =>
            if ContByte d then
              ((b - 0xE0) * 0x1000 + (c - 0x80) * 0x40 + (d - 0x80)) :: utf8Lossy rest3
            else 0xFFFD :: utf8Lossy (d :: rest3)
        else 0xFFFD :: utf8Lossy (c :: rest2)
    else if 0xF0 ≤ b ∧ b ≤ 0xF4 then
      match rest with
      | [] => [0xFFFD]
      | c :: rest2 =>
        if Second4Ok b c then
          match rest2 with
          | [] => [0xFFFD]
          | d :: rest3 =>
            if ContByte d then
              match rest3 with
              | [] => [0xFFFD]
              | e :: rest4 =>
                if ContByte e then
                  ((b - 0xF0) * 0x40000 + (c - 0x80) * 0x1000 + (d - 0x80) * 0x40 + (e - 0x80))
                    :: utf8Lossy rest4
                else 0xFFFD :: utf8Lossy (e :: rest4)
            else 0xFFFD :: utf8Lossy (d :: rest3)
        else 0xFFFD :: utf8Lossy (c :: rest2)
    else 0xFFFD :: utf8Lossy rest
termination_by bs => bs.length
decreasing_by all_goals simp <;> omega

/-- Standard UTF-8 encoding of one Unicode scalar value. -/
def utf8EncodeChar (cp : Nat) : List Nat :=
  if cp ≤ 0x7F then [cp]
  else if cp ≤ 0x7FF then [0xC0 + cp / 0x40, 0x80 + cp % 0x40]
  else if cp ≤ 0xFFFF then [0xE0 + cp / 0x1000, 0x80 + cp / 0x40 % 0x40, 0x80 + cp % 0x40]
  else [0xF0 + cp / 0x40000, 0x80 + cp / 0x1000 % 0x40, 0x80 + cp / 0x40 % 0x40,
        0x80 + cp % 0x40]

/-- Standard UTF-8 encoding of a sequence of Unicode scalar values. -/
def utf8Encode : List Nat → List Nat
  | [] => []
  | cp :: r => utf8EncodeChar cp ++ utf8Encode r

/-- A Unicode scalar value: in range and not a surrogate. -/
def ScalarValue (cp : Nat) : Prop :=
  (cp < 0xD800 ∨ 0xDFFF < cp) ∧ cp ≤ 0x10FFFF

/-- A byte sequence is valid UTF-8 iff it is the encoding of some sequence of
Unicode scalar values. -/
def ValidUtf8 (bs : List Nat) : Prop :=
  ∃ cps : List Nat, (∀ cp ∈ cps, ScalarValue cp) ∧ utf8Encode cps = bs

/-- Events published on the event bus by one session's pump
(`terminal-output` / `terminal-exit`, terminal.rs lines 33-43).  Output data
is the decoded text as a list of Unicode scalar values. -/
inductive TEvent where
  | output : Nat → List Nat → TEvent
  | exit : Nat → Option Nat → TEvent
  deriving DecidableEq

/-- Program counter of a session's pump thread (terminal.rs lines 118-163):
in the read loop; read loop ended (EOF or read error), about to wait for the
child and emit the exit event; exit event emitted, about to remove the table
entry; finished. -/
inductive PumpPc where
  | reading : PumpPc
  | waiting : PumpPc
  | removing : PumpPc
  | done : PumpPc
  deriving DecidableEq

/-- Interleaved state of one session (id 0) and its pump: whether the id is
in the session table, the pump's program counter, and the events published so
far. -/
structure Sys where
  present : Bool
  pc : PumpPc
  events : List TEvent
  deriving DecidableEq

/-- State right after a successful spawn of session 0: entry in the table,
pump in its read loop, no events yet. -/
def initSys : Sys := { present := true, pc := .reading, events := [] }

/-- Labels of the interleaved transitions: the pump's read of `n > 0` bytes,
EOF (or read error), the child-wait-plus-exit-event step, the table-entry
removal, and a concurrent `kill` call on session 0. -/
inductive Lbl where
  | pumpOut : List Nat → Lbl
  | pumpEof : Lbl
  | pumpExit : Option Bool → Lbl
  | pumpRemove : Lbl
  | kill : Lbl
  deriving DecidableEq

/-- The pump's exit-status mapping (terminal.rs lines 142-149):
`child.wait().ok().and_then(|s| if s.success() { Some(0) } else { Some(1) })`.
The argument models `child.wait().ok()`: `none` when the wait itself failed,
otherwise `some` of the status's `success()` flag. -/
def exitCodeOf : Option Bool → Option Nat
  | none => none
  | some true => some 0
  | some false => some 1

/-- One interleaved step; `none` when the label is not enabled.  The pump
publishes the decoded text of every successful read and keeps reading; after
EOF it waits for the child, publishes exactly one exit event, and only then
removes the table entry (`HashMap::remove` of an absent key is a no-op, so
the removal is idempotent against `kill`).  `kill` removes the entry but
never publishes anything. -/
def step (s : Sys) : Lbl → Option Sys
  | .pumpOut bytes =>
    if s.pc = .reading ∧ bytes ≠ [] then
      some { s with events := s.events ++ [.output 0 (utf8Lossy bytes)] }
    else none
  | .pumpEof =>
    if s.pc = .reading then some { s with pc := .waiting } else none
  | .pumpExit w =>
    if s.pc = .waiting then
      some { s with pc := .removing, events := s.events ++ [.exit 0 (exitCodeOf w)] }
    else none
  | .pumpRemove =>
    if s.pc = .removing then some { s with pc := .done, present := false } else none
  | .kill =>
    if s.present then some { s with present := false } else none

/-- Run a sequence of interleaved steps; `none` if any label is disabled. -/
def runSys (s : Sys) : List Lbl → Option Sys
  | [] => some s
  | l :: ls =>
    match step s l with
    | none => none
    | some s2 => runSys s2 ls

/-- `list_terminals` as seen in an interleaved state. -/
def listSys (s : Sys) : List Nat :=
  if s.present then [0] else []

/-- Number of `terminal-exit` events in a published event list. -/
def exitCount (evs : List TEvent) : Nat :=
  (evs.filter fun e => match e with | .exit _ _ => true | _ => false).length

/-- Number of exit events the pump has published, as a function of its
program counter. -/
def pcEmitted : PumpPc → Nat
  | .reading => 0
  | .waiting => 0
  | .removing => 1
  | .done => 1

/-- Invariant tying the published exit events to the pump's progress, and
recording that after the pump's removal step the id is gone. -/
def SysInv (s : Sys) : Prop :=
  exitCount s.events = pcEmitted s.pc ∧ (s.pc = .done → s.present = false)

theorem lookupSession_removeKey_self (t : Table) (sid : Nat) :
    lookupSession (removeKey t sid) sid = none := by
  induction t with
  | nil => rfl
  | cons p r ih =>
    obtain ⟨k, v⟩ := p
    by_cases hk : k = sid
    · simp [removeKey, hk, ih]
    · simp [removeKey, lookupSession, hk, ih]

theorem mem_list_iff_lookup (t : Table) (sid : Nat) :
    sid ∈ list_terminals t ↔ lookupSession t sid ≠ none := by
  induction t with
  | nil => simp [list_terminals, lookupSession]
  | cons p r ih =>
    obtain ⟨k, v⟩ := p
    by_cases hk : k = sid
    · simp [list_terminals, lookupSession, hk]
    · have hk2 : ¬ sid = k := fun h => hk h.symm
      rw [show list_terminals ((k, v) :: r) = k :: list_terminals r from rfl, List.mem_cons]
      simp only [lookupSession, if_neg hk]
      constructor
      · intro h
        rcases h with h | h
        · exact absurd h hk2
        · exact ih.mp h
      · intro h
        exact Or.inr (ih.mpr h)

theorem not_mem_list_removeKey (t : Table) (sid : Nat) :
    sid ∉ list_terminals (removeKey t sid) := by
  rw [mem_list_iff_lookup]
  simp [lookupSession_removeKey_self]

theorem exitCount_append (a b : List TEvent) :
    exitCount (a ++ b) = exitCount a + exitCount b := by
  simp [exitCount, List.filter_append]

theorem step_inv {s s2 : Sys} (l : Lbl) (hinv : SysInv s) (hst : step s l = some s2) :
    SysInv s2 := by
  obtain ⟨h1, h2⟩ := hinv
  cases l with
  | pumpOut bytes =>
    simp only [step] at hst
    split at hst
    · cases hst
      refine ⟨?_, ?_⟩
      · simpa [exitCount_append, exitCount] using h1
      · simpa using h2
    · cases hst
  | pumpEof =>
    simp only [step] at hst
    split at hst
    · cases hst
      rename_i hpc
      refine ⟨by simpa [hpc, pcEmitted] using h1, by simp⟩
    · cases hst
  | pumpExit w =>
    simp only [step] at hst
    split at hst
    · cases hst
      rename_i hpc
      refine ⟨?_, by simp⟩
      show exitCount (s.events ++ [.exit 0 (exitCodeOf w)]) = pcEmitted .removing
      rw [exitCount_append, h1, hpc]
      simp [pcEmitted, exitCount]
    · cases hst
  | pumpRemove =>
    simp only [step] at hst
    split at hst
    · cases hst
      rename_i hpc
      refine ⟨by simpa [hpc, pcEmitted] using h1, by simp⟩
    · cases hst
  | kill =>
    simp only [step] at hst
    split at hst
    · cases hst
      exact ⟨h1, fun h => rfl⟩
    · cases hst

theorem runSys_inv {s s2 : Sys} (ls : List Lbl) (hinv : SysInv s)
    (hrun : runSys s ls = some s2) : SysInv s2 := by
  induction ls generalizing s with
  | nil =>
    simp [runSys] at hrun
    exact hrun ▸ hinv
  | cons l ls ih =>
    simp only [runSys] at hrun
    cases hst : step s l with
    | none => rw [hst] at hrun; cases hrun
    | some s1 =>
      rw [hst] at hrun
      exact ih (step_inv l hinv hst) hrun

theorem step_kill_events {s s2 : Sys} (hst : step s .kill = some s2) :
    s2.events = s.events := by
  simp only [step] at hst
  split at hst
  · cases hst; rfl
  · cases hst

theorem spawn_terminal_counter (c : Nat) (t : Table) (o : SpawnOracle) :
    (spawn_terminal c t o).counter =
      if consumesId (.spawn o) = true then (c + 1) % 2 ^ 32 else c := by
  obtain ⟨op1, sc, cr, tw⟩ := o
  cases op1 <;> cases sc <;> cases cr <;> cases tw <;> simp [spawn_terminal, consumesId]

theorem spawn_terminal_res_ok (c : Nat) (t : Table) (o : SpawnOracle)
    (h : spawnOk (.spawn o) = true) : (spawn_terminal c t o).res = .ok c := by
  obtain ⟨op1, sc, cr, tw⟩ := o
  cases op1 <;> cases sc <;> cases cr <;> cases tw <;> simp_all [spawn_terminal, spawnOk]

theorem spawn_terminal_res_err (c : Nat) (t : Table) (o : SpawnOracle)
    (h : spawnOk (.spawn o) = false) : ∃ m, (spawn_terminal c t o).res = .error m := by
  obtain ⟨op1, sc, cr, tw⟩ := o
  cases op1 <;> cases sc <;> cases cr <;> cases tw <;> simp_all [spawn_terminal, spawnOk]

theorem spawn_terminal_table_err (c : Nat) (t : Table) (o : SpawnOracle)
    (h : spawnOk (.spawn o) = false) : (spawn_terminal c t o).table = t := by
  obtain ⟨op1, sc, cr, tw⟩ := o
  cases op1 <;> cases sc <;> cases cr <;> cases tw <;> simp_all [spawn_terminal, spawnOk]

theorem consumesId_of_spawnOk (o : SpawnOracle) (h : spawnOk (.spawn o) = true) :
    consumesId (.spawn o) = true := by
  obtain ⟨op1, sc, cr, tw⟩ := o
  cases op1 <;> cases sc <;> cases cr <;> cases tw <;> simp_all [consumesId, spawnOk]

theorem allocCount_nil : allocCount [] = 0 := rfl

theorem allocCount_cons (op : MgrOp) (rest : List MgrOp) :
    allocCount (op :: rest) = (if consumesId op = true then 1 else 0) + allocCount rest := by
  simp only [allocCount, List.filter]
  cases h : consumesId op <;> simp [h]
  omega

theorem allocCount_cons_consuming {op : MgrOp} (rest : List MgrOp) (h : consumesId op = true) :
    allocCount (op :: rest) = 1 + allocCount rest := by
  rw [allocCount_cons, h]
  simp

theorem allocCount_cons_skip {op : MgrOp} (rest : List MgrOp) (h : consumesId op = false) :
    allocCount (op :: rest) = allocCount rest := by
  rw [allocCount_cons, h]
  simp

theorem allocCount_replicate (k : Nat) (op : MgrOp) :
    allocCount (List.replicate k op) = if consumesId op = true then k else 0 := by
  induction k with
  | zero => simp [allocCount]
  | succ n ih =>
    rw [List.replicate_succ, allocCount_cons, ih]
    split <;> omega

theorem cBF_cons_ok {op : MgrOp} (rest : List MgrOp) (h : spawnOk op = true) :
    consumedBeforeFirstOk (op :: rest) = 0 := by
  simp [consumedBeforeFirstOk, h]

theorem cBF_cons_fail_consuming {op : MgrOp} (rest : List MgrOp) (h : spawnOk op = false)
    (h2 : consumesId op = true) :
    consumedBeforeFirstOk (op :: rest) = 1 + consumedBeforeFirstOk rest := by
  simp [consumedBeforeFirstOk, h, h2]

theorem cBF_cons_skip {op : MgrOp} (rest : List MgrOp) (h : spawnOk op = false)
    (h2 : consumesId op = false) :
    consumedBeforeFirstOk (op :: rest) = consumedBeforeFirstOk rest := by
  simp [consumedBeforeFirstOk, h, h2]

theorem runOps_counter (ops : List MgrOp) : ∀ c t, c < 2 ^ 32 →
    (runOps c t ops).counter = (c + allocCount ops) % 2 ^ 32 := by
  induction ops with
  | nil =>
    intro c t hc
    simp only [runOps, allocCount_nil]
    omega
  | cons op rest ih =>
    intro c t hc
    cases op with
    | kill sid =>
      rw [allocCount_cons_skip rest (by rfl)]
      simp only [runOps]
      exact ih c _ hc
    | spawn o =>
      simp only [runOps]
      cases hcons : consumesId (.spawn o) with
      | false =>
        have hcnt : (spawn_terminal c t o).counter = c := by
          rw [spawn_terminal_counter, hcons]
          simp
        rw [allocCount_cons_skip rest hcons]
        cases hres : (spawn_terminal c t o).res <;>
          simp only [hres] <;> rw [hcnt] <;> exact ih c _ hc
      | true =>
        have hcnt : (spawn_terminal c t o).counter = (c + 1) % 2 ^ 32 := by
          rw [spawn_terminal_counter, hcons]
          simp
        have hlt : (c + 1) % 2 ^ 32 < 2 ^ 32 := Nat.mod_lt _ (by norm_num)
        rw [allocCount_cons_consuming rest hcons]
        cases hres : (spawn_terminal c t o).res <;>
          · simp only [hres, hcnt]
            rw [ih _ _ hlt]
            omega

theorem runOps_ids_spec (ops : List MgrOp) : ∀ c t, c < 2 ^ 32 → c + allocCount ops ≤ 2 ^ 32 →
    (∀ x ∈ (runOps c t ops).ids, c ≤ x ∧ x < c + allocCount ops) ∧
    List.Pairwise (· < ·) (runOps c t ops).ids ∧
    ((runOps c t ops).ids = [] ∨
      (runOps c t ops).ids.head? = some (c + consumedBeforeFirstOk ops)) := by
  induction ops with
  | nil =>
    intro c t hc hb
    simp [runOps]
  | cons op rest ih =>
    intro c t hc hb
    cases op with
    | kill sid =>
      rw [allocCount_cons_skip rest (by rfl)] at hb
      rw [allocCount_cons_skip rest (by rfl), cBF_cons_skip rest (by rfl) (by rfl)]
      simp only [runOps]
      exact ih c _ hc hb
    | spawn o =>
      simp only [runOps]
      cases hok : spawnOk (.spawn o) with
      | true =>
        have hcons := consumesId_of_spawnOk o hok
        have hres := spawn_terminal_res_ok c t o hok
        have hcnt : (spawn_terminal c t o).counter = (c + 1) % 2 ^ 32 := by
          rw [spawn_terminal_counter, hcons]
          simp
        rw [allocCount_cons_consuming rest hcons] at hb
        rw [allocCount_cons_consuming rest hcons, cBF_cons_ok rest hok]
        simp only [hres, hcnt]
        by_cases hwrap : c + 1 = 2 ^ 32
        · have hrest0 : allocCount rest = 0 := by omega
          have hc2 : (c + 1) % 2 ^ 32 = 0 := by omega
          rw [hc2]
          have hih := ih 0 (spawn_terminal c t o).table (by norm_num) (by omega)
          have hnil : (runOps 0 (spawn_terminal c t o).table rest).ids = [] := by
            rcases hids : (runOps 0 (spawn_terminal c t o).table rest).ids with _ | ⟨x, xs⟩
            · rfl
            · exfalso
              have hx := (hih.1 x (by rw [hids]; exact List.mem_cons_self x xs)).2
              omega
          rw [hnil]
          refine ⟨?_, by simp, ?_⟩
          · intro x hx
            simp only [List.mem_cons, List.not_mem_nil, or_false] at hx
            omega
          · right
            simp
        · have hc2 : (c + 1) % 2 ^ 32 = c + 1 := Nat.mod_eq_of_lt (by omega)
          rw [hc2]
          have hih := ih (c + 1) (spawn_terminal c t o).table (by omega) (by omega)
          refine ⟨?_, ?_, ?_⟩
          · intro x hx
            simp only [List.mem_cons] at hx
            rcases hx with rfl | hx
            · omega
            · have hx2 := hih.1 x hx
              omega
          · rw [List.pairwise_cons]
            refine ⟨fun x hx => ?_, hih.2.1⟩
            have hx2 := hih.1 x hx
            omega
          · right
            simp
      | false =>
        obtain ⟨m, hres⟩ := spawn_terminal_res_err c t o hok
        have htbl := spawn_terminal_table_err c t o hok
        cases hcons : consumesId (.spawn o) with
        | false =>
          have hcnt : (spawn_terminal c t o).counter = c := by
            rw [spawn_terminal_counter, hcons]
            simp
          rw [allocCount_cons_skip rest hcons] at hb
          rw [allocCount_cons_skip rest hcons, cBF_cons_skip rest hok hcons]
          simp only [hres, hcnt, htbl]
          exact ih c t hc hb
        | true =>
          have hcnt : (spawn_terminal c t o).counter = (c + 1) % 2 ^ 32 := by
            rw [spawn_terminal_counter, hcons]
            simp
          rw [allocCount_cons_consuming rest hcons] at hb
          rw [allocCount_cons_consuming rest hcons, cBF_cons_fail_consuming rest hok hcons]
          simp only [hres, hcnt, htbl]
          by_cases hwrap : c + 1 = 2 ^ 32
          · have hrest0 : allocCount rest = 0 := by omega
            have hc2 : (c + 1) % 2 ^ 32 = 0 := by omega
            rw [hc2]
            have hih := ih 0 t (by norm_num) (by omega)
            have hnil : (runOps 0 t rest).ids = [] := by
              rcases hids : (runOps 0 t rest).ids with _ | ⟨x, xs⟩
              · rfl
              · exfalso
                have hx := (hih.1 x (by rw [hids]; exact List.mem_cons_self x xs)).2
                omega
            rw [hnil]
            exact ⟨by simp, by simp, Or.inl rfl⟩
          · have hc2 : (c + 1) % 2 ^ 32 = c + 1 := Nat.mod_eq_of_lt (by omega)
            rw [hc2]
            have hih := ih (c + 1) t (by omega) (by omega)
            refine ⟨?_, hih.2.1, ?_⟩
            · intro x hx
              have hx2 := hih.1 x hx
              omega
            · rcases hih.2.2 with h | h
              · left
                exact h
              · right
                rw [h]
                simp only [Option.some.injEq]
                omega

theorem encChar_ascii {b : Nat} (hb : b ≤ 0x7F) : utf8EncodeChar b = [b] := by
  unfold utf8EncodeChar
  rw [if_pos hb]

theorem encChar_two {b c : Nat} (hb : 0xC2 ≤ b ∧ b ≤ 0xDF) (hc : ContByte c) :
    utf8EncodeChar ((b - 0xC0) * 0x40 + (c - 0x80)) = [b, c] := by
  obtain ⟨hc1, hc2⟩ := hc
  unfold utf8EncodeChar
  rw [if_neg (by omega), if_pos (by omega)]
  simp only [List.cons.injEq, and_true]
  constructor <;> omega

theorem encChar_three {b c d : Nat} (hb : 0xE0 ≤ b ∧ b ≤ 0xEF) (h2 : Second3Ok b c)
    (hd : ContByte d) :
    utf8EncodeChar ((b - 0xE0) * 0x1000 + (c - 0x80) * 0x40 + (d - 0x80)) = [b, c, d] := by
  unfold Second3Ok at h2
  unfold ContByte at h2 hd
  unfold utf8EncodeChar
  rw [if_neg (by omega), if_neg (by omega), if_pos (by omega)]
  simp only [List.cons.injEq, and_true]
  refine ⟨?_, ?_, ?_⟩ <;> omega

theorem encChar_four {b c d e : Nat} (hb : 0xF0 ≤ b ∧ b ≤ 0xF4) (h2 : Second4Ok b c)
    (hd : ContByte d) (he : ContByte e) :
    utf8EncodeChar ((b - 0xF0) * 0x40000 + (c - 0x80) * 0x1000 + (d - 0x80) * 0x40 + (e - 0x80))
      = [b, c, d, e] := by
  unfold Second4Ok at h2
  unfold ContByte at h2 hd he
  unfold utf8EncodeChar
  rw [if_neg (by omega), if_neg (by omega), if_neg (by omega)]
  simp only [List.cons.injEq, and_true]
  refine ⟨?_, ?_, ?_, ?_⟩ <;> omega



set_option maxRecDepth 8000

theorem utf8Lossy_scalar (bs : List Nat) : ∀ cp ∈ utf8Lossy bs, ScalarValue cp := by
  induction bs using utf8Lossy.induct with
  | case1 =>
    simp [utf8Lossy]
  | case2 c rest2 hb ih =>
    intro cp hcp
    rw [utf8Lossy.eq_def] at hcp
    simp only [if_pos hb, List.mem_cons] at hcp
    rcases hcp with rfl | hcp
    · exact ⟨by omega, by omega⟩
    · exact ih cp hcp
  | case3 c hb h2 =>
    intro cp hcp
    rw [utf8Lossy.eq_def] at hcp
    simp only [if_neg hb, if_pos h2, List.mem_singleton] at hcp
    subst hcp
    exact ⟨by omega, by omega⟩
  | case4 c hb h2 c1 rest2 hc1 ih =>
    intro cp hcp
    rw [utf8Lossy.eq_def] at hcp
    simp only [if_neg hb, if_pos h2, if_pos hc1, List.mem_cons] at hcp
    rcases hcp with rfl | hcp
    · unfold ContByte at hc1
      exact ⟨by omega, by omega⟩
    · exact ih cp hcp
  | case5 c hb h2 c1 rest2 hc1 ih =>
    intro cp hcp
    rw [utf8Lossy.eq_def] at hcp
    simp only [if_neg hb, if_pos h2, if_neg hc1, List.mem_cons] at hcp
    rcases hcp with rfl | hcp
    · exact ⟨by omega, by omega⟩
    · exact ih cp hcp
  | case6 c hb h2 h3 =>
    intro cp hcp
    rw [utf8Lossy.eq_def] at hcp
    simp only [if_neg hb, if_neg h2, if_pos h3, List.mem_singleton] at hcp
    subst hcp
    exact ⟨by omega, by omega⟩
  | case7 c hb h2 h3 c1 hs =>
    intro cp hcp
    rw [utf8Lossy.eq_def] at hcp
    simp only [if_neg hb, if_neg h2, if_pos h3, if_pos hs, List.mem_singleton] at hcp
    subst hcp
    exact ⟨by omega, by omega⟩
  | case8 c hb h2 h3 c1 hs c2 rest2 hc2 ih =>
    intro cp hcp
    rw [utf8Lossy.eq_def] at hcp
    simp only [if_neg hb, if_neg h2, if_pos h3, if_pos hs, if_pos hc2, List.mem_cons] at hcp
    rcases hcp with rfl | hcp
    · unfold Second3Ok at hs
      unfold ContByte at hs hc2
      exact ⟨by omega, by omega⟩
    · exact ih cp hcp
  | case9 c hb h2 h3 c1 hs c2 rest2 hc2 ih =>
    intro cp hcp
    rw [utf8Lossy.eq_def] at hcp
    simp only [if_neg hb, if_neg h2, if_pos h3, if_pos hs, if_neg hc2, List.mem_cons] at hcp
    rcases hcp with rfl | hcp
    · exact ⟨by omega, by omega⟩
    · exact ih cp hcp
  | case10 c hb h2 h3 c1 rest2 hs ih =>
    intro cp hcp
    rw [utf8Lossy.eq_def] at hcp
    simp only [if_neg hb, if_neg h2, if_pos h3, if_neg hs, List.mem_cons] at hcp
    rcases hcp with rfl | hcp
    · exact ⟨by omega, by omega⟩
    · exact ih cp hcp
  | case11 c hb h2 h3 h4 =>
    intro cp hcp
    rw [utf8Lossy.eq_def] at hcp
    simp only [if_neg hb, if_neg h2, if_neg h3, if_pos h4, List.mem_singleton] at hcp
    subst hcp
    exact ⟨by omega, by omega⟩
  | case12 c hb h2 h3 h4 c1 hs =>
    intro cp hcp
    rw [utf8Lossy.eq_def] at hcp
    simp only [if_neg hb, if_neg h2, if_neg h3, if_pos h4, if_pos hs, List.mem_singleton] at hcp
    subst hcp
    exact ⟨by omega, by omega⟩
  | case13 c hb h2 h3 h4 c1 hs c2 hc2 =>
    intro cp hcp
    rw [utf8Lossy.eq_def] at hcp
    simp only [if_neg hb, if_neg h2, if_neg h3, if_pos h4, if_pos hs, if_pos hc2,
      List.mem_singleton] at hcp
    subst hcp
    exact ⟨by omega, by omega⟩
  | case14 c hb h2 h3 h4 c1 hs c2 hc2 c3 rest2 hc3 ih =>
    intro cp hcp
    rw [utf8Lossy.eq_def] at hcp
    simp only [if_neg hb, if_neg h2, if_neg h3, if_pos h4, if_pos hs, if_pos hc2, if_pos hc3,
      List.mem_cons] at hcp
    rcases hcp with rfl | hcp
    · unfold Second4Ok at hs
      unfold ContByte at hs hc2 hc3
      exact ⟨by omega, by omega⟩
    · exact ih cp hcp
  | case15 c hb h2 h3 h4 c1 hs c2 hc2 c3 rest2 hc3 ih =>
    intro cp hcp
    rw [utf8Lossy.eq_def] at hcp
    simp only [if_neg hb, if_neg h2, if_neg h3, if_pos h4, if_pos hs, if_pos hc2, if_neg hc3,
      List.mem_cons] at hcp
    rcases hcp with rfl | hcp
    · exact ⟨by omega, by omega⟩
    · exact ih cp hcp
  | case16 c hb h2 h3 h4 c1 hs c2 rest2 hc2 ih =>
    intro cp hcp
    rw [utf8Lossy.eq_def] at hcp
    simp only [if_neg hb, if_neg h2, if_neg h3, if_pos h4, if_pos hs, if_neg hc2,
      List.mem_cons] at hcp
    rcases hcp with rfl | hcp
    · exact ⟨by omega, by omega⟩
    · exact ih cp hcp
  | case17 c hb h2 h3 h4 c1 rest2 hs ih =>
    intro cp hcp
    rw [utf8Lossy.eq_def] at hcp
    simp only [if_neg hb, if_neg h2, if_neg h3, if_pos h4, if_neg hs, List.mem_cons] at hcp
    rcases hcp with rfl | hcp
    · exact ⟨by omega, by omega⟩
    · exact ih cp hcp
  | case18 c rest2 hb h2 h3 h4 ih =>
    intro cp hcp
    rw [utf8Lossy.eq_def] at hcp
    simp only [if_neg hb, if_neg h2, if_neg h3, if_neg h4, List.mem_cons] at hcp
    rcases hcp with rfl | hcp
    · exact ⟨by omega, by omega⟩
    · exact ih cp hcp



theorem utf8Lossy_encode (bs : List Nat) :
    0xFFFD ∉ utf8Lossy bs → utf8Encode (utf8Lossy bs) = bs := by
  induction bs using utf8Lossy.induct with
  | case1 =>
    intro h
    simp [utf8Lossy, utf8Encode]
  | case2 c rest2 hb ih =>
    intro h
    rw [utf8Lossy.eq_def] at h ⊢
    simp only [if_pos hb] at h ⊢
    simp only [List.mem_cons, not_or] at h
    rw [utf8Encode, ih h.2, encChar_ascii hb]
    rfl
  | case3 c hb h2 =>
    intro h
    exfalso
    apply h
    rw [utf8Lossy.eq_def]
    simp [if_neg hb, if_pos h2]
  | case4 c hb h2 c1 rest2 hc1 ih =>
    intro h
    rw [utf8Lossy.eq_def] at h ⊢
    simp only [if_neg hb, if_pos h2, if_pos hc1] at h ⊢
    simp only [List.mem_cons, not_or] at h
    rw [utf8Encode, ih h.2, encChar_two h2 hc1]
    rfl
  | case5 c hb h2 c1 rest2 hc1 ih =>
    intro h
    exfalso
    apply h
    rw [utf8Lossy.eq_def]
    simp only [if_neg hb, if_pos h2, if_neg hc1]
    exact List.mem_cons_self _ _
  | case6 c hb h2 h3 =>
    intro h
    exfalso
    apply h
    rw [utf8Lossy.eq_def]
    simp [if_neg hb, if_neg h2, if_pos h3]
  | case7 c hb h2 h3 c1 hs =>
    intro h
    exfalso
    apply h
    rw [utf8Lossy.eq_def]
    simp [if_neg hb, if_neg h2, if_pos h3, if_pos hs]
  | case8 c hb h2 h3 c1 hs c2 rest2 hc2 ih =>
    intro h
    rw [utf8Lossy.eq_def] at h ⊢
    simp only [if_neg hb, if_neg h2, if_pos h3, if_pos hs, if_pos hc2] at h ⊢
    simp only [List.mem_cons, not_or] at h
    rw [utf8Encode, ih h.2, encChar_three h3 hs hc2]
    rfl
  | case9 c hb h2 h3 c1 hs c2 rest2 hc2 ih =>
    intro h
    exfalso
    apply h
    rw [utf8Lossy.eq_def]
    simp only [if_neg hb, if_neg h2, if_pos h3, if_pos hs, if_neg hc2]
    exact List.mem_cons_self _ _
  | case10 c hb h2 h3 c1 rest2 hs ih =>
    intro h
    exfalso
    apply h
    rw [utf8Lossy.eq_def]
    simp only [if_neg hb, if_neg h2, if_pos h3, if_neg hs]
    exact List.mem_cons_self _ _
  | case11 c hb h2 h3 h4 =>
    intro h
    exfalso
    apply h
    rw [utf8Lossy.eq_def]
    simp [if_neg hb, if_neg h2, if_neg h3, if_pos h4]
  | case12 c hb h2 h3 h4 c1 hs =>
    intro h
    exfalso
    apply h
    rw [utf8Lossy.eq_def]
    simp [if_neg hb, if_neg h2, if_neg h3, if_pos h4, if_pos hs]
  | case13 c hb h2 h3 h4 c1 hs c2 hc2 =>
    intro h
    exfalso
    apply h
    rw [utf8Lossy.eq_def]
    simp [if_neg hb, if_neg h2, if_neg h3, if_pos h4, if_pos hs, if_pos hc2]
  | case14 c hb h2 h3 h4 c1 hs c2 hc2 c3 rest2 hc3 ih =>
    intro h
    rw [utf8Lossy.eq_def] at h ⊢
    simp only [if_neg hb, if_neg h2, if_neg h3, if_pos h4, if_pos hs, if_pos hc2,
      if_pos hc3] at h ⊢
    simp only [List.mem_cons, not_or] at h
    rw [utf8Encode, ih h.2, encChar_four h4 hs hc2 hc3]
    rfl
  | case15 c hb h2 h3 h4 c1 hs c2 hc2 c3 rest2 hc3 ih =>
    intro h
    exfalso
    apply h
    rw [utf8Lossy.eq_def]
    simp only [if_neg hb, if_neg h2, if_neg h3, if_pos h4, if_pos hs, if_pos hc2, if_neg hc3]
    exact List.mem_cons_self _ _
  | case16 c hb h2 h3 h4 c1 hs c2 rest2 hc2 ih =>
    intro h
    exfalso
    apply h
    rw [utf8Lossy.eq_def]
    simp only [if_neg hb, if_neg h2, if_neg h3, if_pos h4, if_pos hs, if_neg hc2]
    exact List.mem_cons_self _ _
  | case17 c hb h2 h3 h4 c1 rest2 hs ih =>
    intro h
    exfalso
    apply h
    rw [utf8Lossy.eq_def]
    simp only [if_neg hb, if_neg h2, if_neg h3, if_pos h4, if_neg hs]
    exact List.mem_cons_self _ _
  | case18 c rest2 hb h2 h3 h4 ih =>
    intro h
    exfalso
    apply h
    rw [utf8Lossy.eq_def]
    simp only [if_neg hb, if_neg h2, if_neg h3, if_neg h4]
    exact List.mem_cons_self _ _

theorem utf8Lossy_invalid_repl (bs : List Nat) (h : ¬ ValidUtf8 bs) :
    0xFFFD ∈ utf8Lossy bs := by
  by_contra hrep
  exact h ⟨utf8Lossy bs, utf8Lossy_scalar bs, utf8Lossy_encode bs hrep⟩

theorem spawn_terminal_pump_err (c : Nat) (t : Table) (o : SpawnOracle)
    (h : spawnOk (.spawn o) = false) : (spawn_terminal c t o).pumpStarted = false := by
  obtain ⟨op1, sc, cr, tw⟩ := o
  cases op1 <;> cases sc <;> cases cr <;> cases tw <;> simp_all [spawn_terminal, spawnOk]

theorem runOps_ids_replicate_readerFail (k : Nat) : ∀ c t,
    (runOps c t (List.replicate k (.spawn readerFailOracle))).ids = [] := by
  induction k with
  | zero =>
    intro c t
    rfl
  | succ n ih =>
    intro c t
    rw [List.replicate_succ]
    simp only [runOps]
    have hres : (spawn_terminal c t readerFailOracle).res =
        .error ("Failed to clone reader: " ++ "EIO") := rfl
    simp only [hres]
    exact ih _ _

/-- C1, counterexample.  The claim says the blocking I/O of `write` and
`resize` happens while the session-table lock is *not* held.  On a table
holding session 0, a successful `write` of the bytes of "hi" and a
successful `resize` both carry out their I/O strictly between the lock
acquisition and the lock release: `anyIoWhileHeld` returns `true` on both
traces, so the claim is false. -/
theorem C1_lock_counterexample :
    (write_terminal [(0, ⟨1, 2⟩)] 0 [104, 105] ⟨.ok (), .ok ()⟩).res = .ok () ∧
    anyIoWhileHeld 0 (write_terminal [(0, ⟨1, 2⟩)] 0 [104, 105] ⟨.ok (), .ok ()⟩).trace = true ∧
    (resize_terminal [(0, ⟨1, 2⟩)] 0 120 40 ⟨.ok ()⟩).res = .ok () ∧
    anyIoWhileHeld 0 (resize_terminal [(0, ⟨1, 2⟩)] 0 120 40 ⟨.ok ()⟩).trace = true := by
  exact ⟨rfl, rfl, rfl, rfl⟩

/-- C1, amended.  In `write_terminal` and `resize_terminal` the guard of
`state.sessions.lock()` lives until the function returns, so whenever the
session is found, the blocking OS-level I/O (write/flush to the PTY writer,
resize on the master) is performed while the session-table lock is held;
a slow write to one session's PTY therefore can block concurrent operations
on other sessions. -/
theorem C1_io_performed_under_lock (t : Table) (sid : Nat) (data : List Nat)
    (cols rows : Nat) (ow : WriteOracle) (orz : ResizeOracle) (p : PtySession)
    (h : lookupSession t sid = some p) :
    anyIoWhileHeld 0 (write_terminal t sid data ow).trace = true ∧
    anyIoWhileHeld 0 (resize_terminal t sid cols rows orz).trace = true := by
  obtain ⟨w, f⟩ := ow
  obtain ⟨r⟩ := orz
  constructor
  · cases w <;> cases f <;> simp [write_terminal, h, anyIoWhileHeld, isIoEv]
  · cases r <;> simp [resize_terminal, h, anyIoWhileHeld, isIoEv]

/-- C1, witness for the amended theorem at a concrete table and session. -/
theorem C1_io_performed_under_lock_witness :
    anyIoWhileHeld 0 (write_terminal [(0, ⟨1, 2⟩)] 0 [104] ⟨.error "EPIPE", .ok ()⟩).trace
      = true ∧
    anyIoWhileHeld 0 (resize_terminal [(0, ⟨1, 2⟩)] 0 80 24 ⟨.error "EIO"⟩).trace = true :=
  C1_io_performed_under_lock [(0, ⟨1, 2⟩)] 0 [104] 80 24 ⟨.error "EPIPE", .ok ()⟩
    ⟨.error "EIO"⟩ ⟨1, 2⟩ rfl

/-- C2, counterexample.  The pump publishes the `terminal-exit` event before
removing the table entry (terminal.rs lines 151-162), so there is a reachable
state in which the exit event for session 0 has been published (exactly one)
and yet session 0 is still in `list` and still a valid target for `kill`.
This refutes the claim's part "after the exit event has been published the
session identifier is absent from list and no longer valid for
write/resize/kill". -/
theorem C2_exit_event_window_counterexample :
    runSys initSys [.pumpEof, .pumpExit (some true)] =
      some { present := true, pc := .removing, events := [.exit 0 (some 0)] } ∧
    exitCount [.exit 0 (some 0)] = 1 ∧
    listSys { present := true, pc := .removing, events := [.exit 0 (some 0)] } = [0] ∧
    (step { present := true, pc := .removing, events := [.exit 0 (some 0)] } .kill).isSome
      = true := by
  exact ⟨rfl, rfl, rfl, rfl⟩

/-- C2, amended.  In every interleaving of the pump with concurrent `kill`
calls, at most one `terminal-exit` event is ever published for the session,
exactly one once the pump has completed; after the pump's cleanup removal
(which follows the event) the identifier is absent from `list`; and `kill`
itself never publishes any event.  Between the event's publication and the
pump's removal step there is a window in which the identifier is still
present. -/
theorem C2_exactly_one_exit :
    (∀ ls s2, runSys initSys ls = some s2 →
      exitCount s2.events ≤ 1 ∧
      (s2.pc = .done → exitCount s2.events = 1 ∧ s2.present = false)) ∧
    (∀ s s2, step s .kill = some s2 → s2.events = s.events) := by
  constructor
  · intro ls s2 hrun
    have hinv : SysInv initSys := ⟨rfl, by simp [initSys]⟩
    obtain ⟨h1, h2⟩ := runSys_inv ls hinv hrun
    constructor
    · rw [h1]
      cases s2.pc <;> simp [pcEmitted]
    · intro hd
      refine ⟨?_, h2 hd⟩
      rw [h1, hd]
      rfl
  · intro s s2 h
    exact step_kill_events h

/-- C2, witness: a complete natural-exit run ending at `done` with exactly
one exit event, and a concrete kill step that leaves the event list
unchanged. -/
theorem C2_exactly_one_exit_witness :
    exitCount (Sys.mk false .done [.exit 0 (some 0)]).events ≤ 1 ∧
    ((Sys.mk false .done [.exit 0 (some 0)]).pc = .done →
      exitCount (Sys.mk false .done [.exit 0 (some 0)]).events = 1 ∧
      (Sys.mk false .done [.exit 0 (some 0)]).present = false) ∧
    (Sys.mk false .reading ([] : List TEvent)).events =
      (Sys.mk true .reading ([] : List TEvent)).events := by
  refine ⟨?_, ?_, ?_⟩
  · exact (C2_exactly_one_exit.1 [.pumpEof, .pumpExit (some true), .pumpRemove] _ rfl).1
  · exact (C2_exactly_one_exit.1 [.pumpEof, .pumpExit (some true), .pumpRemove] _ rfl).2
  · exact C2_exactly_one_exit.2 (Sys.mk true .reading []) (Sys.mk false .reading []) rfl

/-- C3.  Whenever `spawn_terminal` fails — at `openpty`, `spawn_command`,
`try_clone_reader` or `take_writer` — it returns the corresponding error and
the session table is exactly as before the call (no partial session under
any identifier) and no pump thread is started: all four error returns
precede the table insert at lines 104-113 and the `thread::spawn` at
line 118. -/
theorem C3_spawn_failure_no_partial_state (c : Nat) (t : Table) (o : SpawnOracle)
    (m : String) (h : (spawn_terminal c t o).res = .error m) :
    (spawn_terminal c t o).table = t ∧ (spawn_terminal c t o).pumpStarted = false := by
  cases hok : spawnOk (.spawn o) with
  | true =>
    rw [spawn_terminal_res_ok c t o hok] at h
    exact Except.noConfusion h
  | false =>
    exact ⟨spawn_terminal_table_err c t o hok, spawn_terminal_pump_err c t o hok⟩

/-- C3, witness: a spawn failing at `openpty` leaves the empty table empty
and starts no pump. -/
theorem C3_spawn_failure_no_partial_state_witness :
    (spawn_terminal 3 [] openFailOracle).table = [] ∧
    (spawn_terminal 3 [] openFailOracle).pumpStarted = false :=
  C3_spawn_failure_no_partial_state 3 [] openFailOracle ("Failed to open PTY: " ++ "ENXIO") rfl

/-- C4, counterexample.  `SESSION_COUNTER` is an `AtomicU32` and
`fetch_add(1, SeqCst)` wraps modulo 2 ^ 32, so identifiers are reused: the
very first spawn of the process returns identifier 0, and the spawn
performed after 2 ^ 32 further successful spawns returns identifier 0
again — two distinct successful spawn calls with equal (hence neither
distinct nor monotonically increasing, and reused) identifiers. -/
theorem C4_counter_wrap_counterexample :
    (spawn_terminal 0 [] allOkOracle).res = .ok 0 ∧
    (spawn_terminal (runOps 0 [] (List.replicate (2 ^ 32) (.spawn allOkOracle))).counter
      (runOps 0 [] (List.replicate (2 ^ 32) (.spawn allOkOracle))).table allOkOracle).res =
      .ok 0 := by
  constructor
  · rfl
  · have hcnt := runOps_counter (List.replicate (2 ^ 32) (.spawn allOkOracle)) 0 []
      (by norm_num)
    rw [allocCount_replicate] at hcnt
    simp only [show consumesId (.spawn allOkOracle) = true from rfl, if_pos] at hcnt
    have hzero : (runOps 0 [] (List.replicate (2 ^ 32) (.spawn allOkOracle))).counter = 0 := by
      rw [hcnt]
      norm_num
    rw [hzero]
    rfl

/-- C4, amended.  As long as the process performs at most 2 ^ 32 identifier
allocations (`fetch_add` executions), the identifiers returned by successful
spawns — in any interleaving with kills, i.e. even after sessions are
removed — are strictly increasing in spawn order and pairwise distinct;
beyond that the 32-bit counter wraps and identifiers repeat. -/
theorem C4_ids_distinct_increasing (ops : List MgrOp) (h : allocCount ops ≤ 2 ^ 32) :
    List.Pairwise (· < ·) (runOps 0 [] ops).ids ∧
    List.Pairwise (· ≠ ·) (runOps 0 [] ops).ids := by
  have hs := runOps_ids_spec ops 0 [] (by norm_num) (by omega)
  exact ⟨hs.2.1, hs.2.1.imp fun hab => Nat.ne_of_lt hab⟩

/-- C4, witness: a spawn, a kill of the returned session, and another spawn
yield strictly increasing, distinct identifiers. -/
theorem C4_ids_distinct_increasing_witness :
    List.Pairwise (· < ·) (runOps 0 [] [.spawn allOkOracle, .kill 0, .spawn allOkOracle]).ids ∧
    List.Pairwise (· ≠ ·) (runOps 0 [] [.spawn allOkOracle, .kill 0, .spawn allOkOracle]).ids :=
  C4_ids_distinct_increasing [.spawn allOkOracle, .kill 0, .spawn allOkOracle] (by decide)

/-- C5.  `write`, `resize` and `kill` on an identifier that is not in the
session table each fail with the `SessionNotFound` error string and leave
the table unchanged. -/
theorem C5_absent_id_not_found (t : Table) (sid : Nat) (data : List Nat) (cols rows : Nat)
    (ow : WriteOracle) (orz : ResizeOracle) (h : lookupSession t sid = none) :
    (write_terminal t sid data ow).res = .error (notFoundMsg sid) ∧
    (write_terminal t sid data ow).table = t ∧
    (resize_terminal t sid cols rows orz).res = .error (notFoundMsg sid) ∧
    (resize_terminal t sid cols rows orz).table = t ∧
    (kill_terminal t sid).res = .error (notFoundMsg sid) ∧
    (kill_terminal t sid).table = t := by
  simp [write_terminal, resize_terminal, kill_terminal, h]

/-- C5, witness at the empty table. -/
theorem C5_absent_id_not_found_witness :
    (write_terminal [] 7 [104] ⟨.ok (), .ok ()⟩).res = .error (notFoundMsg 7) ∧
    (write_terminal [] 7 [104] ⟨.ok (), .ok ()⟩).table = [] ∧
    (resize_terminal [] 7 80 24 ⟨.ok ()⟩).res = .error (notFoundMsg 7) ∧
    (resize_terminal [] 7 80 24 ⟨.ok ()⟩).table = [] ∧
    (kill_terminal [] 7).res = .error (notFoundMsg 7) ∧
    (kill_terminal [] 7).table = [] :=
  C5_absent_id_not_found [] 7 [104] 80 24 ⟨.ok (), .ok ()⟩ ⟨.ok ()⟩ rfl

/-- C6.  `kill` on an identifier present in the table removes that entry
(the stored writer and master are dropped with it), returns `Ok`, the
identifier is immediately absent from `list` and no longer found by lookup,
and a second `kill` of the same identifier fails with `SessionNotFound`. -/
theorem C6_kill_removes_entry (t : Table) (sid : Nat) (p : PtySession)
    (h : lookupSession t sid = some p) :
    (kill_terminal t sid).res = .ok () ∧
    lookupSession (kill_terminal t sid).table sid = none ∧
    sid ∉ list_terminals (kill_terminal t sid).table ∧
    (kill_terminal (kill_terminal t sid).table sid).res = .error (notFoundMsg sid) := by
  have htbl : (kill_terminal t sid).table = removeKey t sid := by
    simp [kill_terminal, h]
  refine ⟨by simp [kill_terminal, h], ?_, ?_, ?_⟩
  · rw [htbl]
    exact lookupSession_removeKey_self t sid
  · rw [htbl]
    exact not_mem_list_removeKey t sid
  · rw [htbl]
    simp [kill_terminal, lookupSession_removeKey_self]

/-- C6, witness on a one-session table. -/
theorem C6_kill_removes_entry_witness :
    (kill_terminal [(0, ⟨1, 2⟩)] 0).res = .ok () ∧
    lookupSession (kill_terminal [(0, ⟨1, 2⟩)] 0).table 0 = none ∧
    0 ∉ list_terminals (kill_terminal [(0, ⟨1, 2⟩)] 0).table ∧
    (kill_terminal (kill_terminal [(0, ⟨1, 2⟩)] 0).table 0).res = .error (notFoundMsg 0) :=
  C6_kill_removes_entry [(0, ⟨1, 2⟩)] 0 ⟨1, 2⟩ rfl

/-- C7.  `write` on a present identifier leaves the table unchanged (the
entry remains) and attempts `write_all` at most once (no retry); when both
the write and the flush succeed it returns `Ok` and its trace is exactly one
`write_all` of the raw bytes of `data` immediately followed by one flush;
when `write_all` fails it returns the corresponding `IoError` string without
flushing; when the flush fails it returns the flush `IoError` string. -/
theorem C7_write_writes_and_flushes (t : Table) (sid : Nat) (data : List Nat)
    (o : WriteOracle) (p : PtySession) (h : lookupSession t sid = some p) :
    (write_terminal t sid data o).table = t ∧
    ((write_terminal t sid data o).trace.filter isWriteEv).length ≤ 1 ∧
    (o.writeAllRes = .ok () → o.flushRes = .ok () →
      (write_terminal t sid data o).res = .ok () ∧
      (write_terminal t sid data o).trace =
        [.lockAcquire, .lookup sid, .writeAll sid data, .flushW sid, .lockRelease]) ∧
    (∀ e, o.writeAllRes = .error e →
      (write_terminal t sid data o).res = .error ("Failed to write to terminal: " ++ e) ∧
      (write_terminal t sid data o).trace =
        [.lockAcquire, .lookup sid, .writeAll sid data, .lockRelease]) ∧
    (∀ e, o.writeAllRes = .ok () → o.flushRes = .error e →
      (write_terminal t sid data o).res = .error ("Failed to flush terminal: " ++ e)) := by
  obtain ⟨w, f⟩ := o
  cases w <;> cases f <;>
    simp [write_terminal, h, isWriteEv, List.filter]

/-- C7, witness: a successful write of the bytes of "hi" to session 0. -/
theorem C7_write_writes_and_flushes_witness :
    (write_terminal [(0, ⟨1, 2⟩)] 0 [104, 105] ⟨.ok (), .ok ()⟩).table = [(0, ⟨1, 2⟩)] ∧
    ((write_terminal [(0, ⟨1, 2⟩)] 0 [104, 105] ⟨.ok (), .ok ()⟩).trace.filter
      isWriteEv).length ≤ 1 ∧
    ((⟨.ok (), .ok ()⟩ : WriteOracle).writeAllRes = .ok () →
      (⟨.ok (), .ok ()⟩ : WriteOracle).flushRes = .ok () →
      (write_terminal [(0, ⟨1, 2⟩)] 0 [104, 105] ⟨.ok (), .ok ()⟩).res = .ok () ∧
      (write_terminal [(0, ⟨1, 2⟩)] 0 [104, 105] ⟨.ok (), .ok ()⟩).trace =
        [.lockAcquire, .lookup 0, .writeAll 0 [104, 105], .flushW 0, .lockRelease]) ∧
    (∀ e, (⟨.ok (), .ok ()⟩ : WriteOracle).writeAllRes = .error e →
      (write_terminal [(0, ⟨1, 2⟩)] 0 [104, 105] ⟨.ok (), .ok ()⟩).res =
        .error ("Failed to write to terminal: " ++ e) ∧
      (write_terminal [(0, ⟨1, 2⟩)] 0 [104, 105] ⟨.ok (), .ok ()⟩).trace =
        [.lockAcquire, .lookup 0, .writeAll 0 [104, 105], .lockRelease]) ∧
    (∀ e, (⟨.ok (), .ok ()⟩ : WriteOracle).writeAllRes = .ok () →
      (⟨.ok (), .ok ()⟩ : WriteOracle).flushRes = .error e →
      (write_terminal [(0, ⟨1, 2⟩)] 0 [104, 105] ⟨.ok (), .ok ()⟩).res =
        .error ("Failed to flush terminal: " ++ e)) :=
  C7_write_writes_and_flushes [(0, ⟨1, 2⟩)] 0 [104, 105] ⟨.ok (), .ok ()⟩ ⟨1, 2⟩ rfl

/-- C8.  When the pump's read loop has ended, the exit step publishes one
exit event whose status is computed by the source's mapping: the child wait
succeeding with a success status gives code 0, succeeding with any
non-success status gives the fixed placeholder 1, and a failed wait gives an
absent status. -/
theorem C8_exit_code_mapping (s : Sys) (w : Option Bool) (h : s.pc = .waiting) :
    step s (.pumpExit w) =
      some { s with pc := .removing, events := s.events ++ [.exit 0 (exitCodeOf w)] } ∧
    exitCodeOf (some true) = some 0 ∧
    exitCodeOf (some false) = some 1 ∧
    exitCodeOf none = none := by
  refine ⟨?_, rfl, rfl, rfl⟩
  simp [step, h]

/-- C8, witness at a pump that has just left its read loop. -/
theorem C8_exit_code_mapping_witness :
    step (Sys.mk true .waiting []) (.pumpExit (some false)) =
      some (Sys.mk true .removing [.exit 0 (exitCodeOf (some false))]) ∧
    exitCodeOf (some true) = some 0 ∧
    exitCodeOf (some false) = some 1 ∧
    exitCodeOf none = none :=
  C8_exit_code_mapping (Sys.mk true .waiting []) (some false) rfl

/-- C9.  For every non-empty byte buffer read by the pump, the read step
publishes exactly one output event carrying the text decoded by the lossy
UTF-8 decoding (which is total, so malformed input never fails or aborts the
pump) and leaves the pump in its reading state; and any buffer that is not
valid UTF-8 is decoded to text containing the U+FFFD replacement marker. -/
theorem C9_pump_decodes_and_continues (s : Sys) (bytes : List Nat) (h1 : s.pc = .reading)
    (h2 : bytes ≠ []) :
    step s (.pumpOut bytes) =
      some { s with events := s.events ++ [.output 0 (utf8Lossy bytes)] } ∧
    (¬ ValidUtf8 bytes → 0xFFFD ∈ utf8Lossy bytes) := by
  refine ⟨?_, fun hinv => utf8Lossy_invalid_repl bytes hinv⟩
  simp [step, h1, h2]

/-- C9, witness: reading the single malformed byte 0xFF publishes one output
event carrying the replacement marker and the pump keeps reading. -/
theorem C9_pump_decodes_and_continues_witness :
    step initSys (.pumpOut [0xFF]) =
      some { initSys with events := initSys.events ++ [.output 0 (utf8Lossy [0xFF])] } ∧
    (¬ ValidUtf8 [0xFF] → 0xFFFD ∈ utf8Lossy [0xFF]) :=
  C9_pump_decodes_and_continues initSys [0xFF] rfl (by simp)

/-- C10, counterexample.  The claim says the first successful spawn returns
0 only if no earlier spawn failed at the reader/writer stage.  But after
2 ^ 32 spawns that all failed at `try_clone_reader` (each consuming an
identifier; none returning one), the wrapped counter is 0 again and the
first successful spawn still returns identifier 0. -/
theorem C10_wrap_counterexample :
    (runOps 0 [] (List.replicate (2 ^ 32) (.spawn readerFailOracle))).ids = [] ∧
    (spawn_terminal (runOps 0 [] (List.replicate (2 ^ 32) (.spawn readerFailOracle))).counter
      (runOps 0 [] (List.replicate (2 ^ 32) (.spawn readerFailOracle))).table
      allOkOracle).res = .ok 0 := by
  constructor
  · exact runOps_ids_replicate_readerFail (2 ^ 32) 0 []
  · have hcnt := runOps_counter (List.replicate (2 ^ 32) (.spawn readerFailOracle)) 0 []
      (by norm_num)
    rw [allocCount_replicate] at hcnt
    simp only [show consumesId (.spawn readerFailOracle) = true from rfl, if_pos] at hcnt
    have hzero :
        (runOps 0 [] (List.replicate (2 ^ 32) (.spawn readerFailOracle))).counter = 0 := by
      rw [hcnt]
      norm_num
    rw [hzero]
    rfl

/-- C10, amended.  The counter is consumed exactly by the spawns whose
`openpty` and `spawn_command` succeed: a failure at `openpty` or
`spawn_command` leaves the counter unchanged, while a failure at
`try_clone_reader` or `take_writer` returns an error yet still advances the
counter (and leaves the table unchanged).  While the process performs at
most 2 ^ 32 allocations, the identifiers of successful spawns are strictly
increasing but not necessarily consecutive (witness run: ids 0 and 2 with a
reader-failing spawn in between), and the first successful spawn returns
exactly the number of identifiers consumed before it — 0 only if no earlier
spawn consumed one. -/
theorem C10_counter_consumption :
    (∀ c t o e, o.openpty = .ok () → o.spawnCmd = .ok () → o.cloneReader = .error e →
      (spawn_terminal c t o).counter = (c + 1) % 2 ^ 32 ∧
      (spawn_terminal c t o).res = .error ("Failed to clone reader: " ++ e) ∧
      (spawn_terminal c t o).table = t) ∧
    (∀ c t o e, o.openpty = .ok () → o.spawnCmd = .ok () → o.cloneReader = .ok () →
      o.takeWriter = .error e →
      (spawn_terminal c t o).counter = (c + 1) % 2 ^ 32 ∧
      (spawn_terminal c t o).res = .error ("Failed to take writer: " ++ e) ∧
      (spawn_terminal c t o).table = t) ∧
    (∀ c t o e, o.openpty = .error e → (spawn_terminal c t o).counter = c) ∧
    (∀ c t o e, o.openpty = .ok () → o.spawnCmd = .error e →
      (spawn_terminal c t o).counter = c) ∧
    (∀ ops, allocCount ops ≤ 2 ^ 32 →
      List.Pairwise (· < ·) (runOps 0 [] ops).ids ∧
      ((runOps 0 [] ops).ids = [] ∨
        (runOps 0 [] ops).ids.head? = some (consumedBeforeFirstOk ops))) ∧
    (runOps 0 [] [.spawn allOkOracle, .spawn readerFailOracle, .spawn allOkOracle]).ids =
      [0, 2] := by
  refine ⟨?_, ?_, ?_, ?_, ?_, by decide⟩
  · intro c t o e h1 h2 h3
    obtain ⟨f1, f2, f3, f4⟩ := o
    simp only at h1 h2 h3
    subst h1
    subst h2
    subst h3
    exact ⟨rfl, rfl, rfl⟩
  · intro c t o e h1 h2 h3 h4
    obtain ⟨f1, f2, f3, f4⟩ := o
    simp only at h1 h2 h3 h4
    subst h1
    subst h2
    subst h3
    subst h4
    exact ⟨rfl, rfl, rfl⟩
  · intro c t o e h1
    obtain ⟨f1, f2, f3, f4⟩ := o
    simp only at h1
    subst h1
    rfl
  · intro c t o e h1 h2
    obtain ⟨f1, f2, f3, f4⟩ := o
    simp only at h1 h2
    subst h1
    subst h2
    rfl
  · intro ops hb
    have hs := runOps_ids_spec ops 0 [] (by norm_num) (by omega)
    refine ⟨hs.2.1, ?_⟩
    rcases hs.2.2 with h | h
    · exact Or.inl h
    · right
      rw [h]
      simp

/-- C10, witness instantiating each universally quantified part. -/
theorem C10_counter_consumption_witness :
    (spawn_terminal 5 [] readerFailOracle).counter = (5 + 1) % 2 ^ 32 ∧
    (spawn_terminal 5 [] readerFailOracle).res =
      .error ("Failed to clone reader: " ++ "EIO") ∧
    (spawn_terminal 5 [] readerFailOracle).table = [] ∧
    (spawn_terminal 7 [] openFailOracle).counter = 7 ∧
    List.Pairwise (· < ·) (runOps 0 [] [.spawn allOkOracle]).ids := by
  refine ⟨?_, ?_, ?_, ?_, ?_⟩
  · exact (C10_counter_consumption.1 5 [] readerFailOracle "EIO" rfl rfl rfl).1
  · exact (C10_counter_consumption.1 5 [] readerFailOracle "EIO" rfl rfl rfl).2.1
  · exact (C10_counter_consumption.1 5 [] readerFailOracle "EIO" rfl rfl rfl).2.2
  · exact C10_counter_consumption.2.2.1 7 [] openFailOracle "ENXIO" rfl
  · exact (C10_counter_consumption.2.2.2.2.1 [.spawn allOkOracle] (by decide)).1

end Karpi
